import Mathlib

/-!
# A verification model of FancyLogger

This file gives a shallow embedding of the Python library FancyLogger
(`FancyLogger/__init__.py`, `FancyLogger/processing/__init__.py`,
`FancyLogger/commands/__init__.py`) and proves properties of its data model
and of the logger process's command handlers.

Modelling conventions:
* Python integers and millisecond clock values become `Int`; `time.time() * 1000`
  readings are passed to the handlers explicitly as a `now : Int` argument.
* Python `None`-able time fields become `Option Int`; Python truthiness on such
  a field (`if not self.begin_time`) tests for `none` or `0`.
* Python lists become `List`, `OrderedDict` becomes an association list kept in
  insertion order with unique keys.
* The `while` loops of `millis_to_human_readable` whose counter strictly
  decreases are translated by well-founded recursion; the final week loop does
  not decrease its counter, so it is translated with explicit fuel and a `none`
  result standing for non-termination.
* Fallible evaluation (a handler whose repaint would not terminate) returns
  `Option`.
-/

/-- The five standard levels of the Python `logging` module that the logger
dispatches on (`run` compares `o.level` against exactly these constants). -/
inductive PyLevel
  | debug
  | info
  | warning
  | error
  | critical
deriving DecidableEq, BEq

/-- Numeric values of the standard python logging levels. -/
def levelValue : PyLevel → Nat
  | .debug => 10
  | .info => 20
  | .warning => 30
  | .error => 40
  | .critical => 50

/-- The level names used when formatting console messages. -/
def levelName : PyLevel → String
  | .debug => "DEBUG"
  | .info => "INFO"
  | .warning => "WARNING"
  | .error => "ERROR"
  | .critical => "CRITICAL"

/-- The indentation prepended to the text sent to the file logger:
`self.log.info('\t\t{}'...)` uses two tabs, every other level one tab. -/
def fileIndent : PyLevel → String
  | .info => "\t\t"
  | _ => "\t"

/-- Model of `TaskProgress` from `FancyLogger/__init__.py`: data and display state of
one progress bar.  Time fields start as Python `None` (`Option.none`). -/
structure TaskProgress where
  progress : Int
  total : Int
  prefixStr : String
  suffixStr : String
  decimals : Int
  bar_length : Int
  keep_alive : Bool
  display_time : Bool
  timeout_chrono : Option Int
  begin_time : Option Int
  end_time : Option Int
  elapsed_time_at_end : Option String
deriving DecidableEq

/-- Model of `TaskProgress.__init__`: progress starts at 0 and all chrono fields at
`None`. -/
def mkTaskProgress (total : Int) (prefixStr suffixStr : String) (decimals bar_length : Int)
    (keep_alive display_time : Bool) : TaskProgress :=
  { progress := 0
    total := total
    prefixStr := prefixStr
    suffixStr := suffixStr
    decimals := decimals
    bar_length := bar_length
    keep_alive := keep_alive
    display_time := display_time
    timeout_chrono := none
    begin_time := none
    end_time := none
    elapsed_time_at_end := none }

/-- Python truthiness of an optional clock value: `None` and `0` are falsy. -/
def timeFalsy : Option Int → Bool
  | none => true
  | some x => x == 0

/-- Python truthiness of an optional string: `None` and `''` are falsy. -/
def strFalsy : Option String → Bool
  | none => true
  | some s => s == ""

/-- The clamping performed at the top of `TaskProgress.set_progress`:
values above `total` become `total`, negative values become `0`. -/
def clampProgress (t : TaskProgress) (progress : Int) : Int :=
  if progress > t.total then t.total
  else if progress < 0 then 0
  else progress

/-- Model of `TaskProgress.set_progress`.  The Python method reads the wall clock when a
completing update arrives; the model receives that reading as `now`.  Returns
the updated task and `has_changed`. -/
def set_progress (t : TaskProgress) (progress : Int) (now : Int) : TaskProgress × Bool :=
  let p := clampProgress t progress
  -- Stop task chrono if needed
  let t1 :=
    if p == t.total && t.display_time then
      let t' := { t with end_time := some now }
      -- If the task has completed instantly then define its begin_time too
      if timeFalsy t'.begin_time then { t' with begin_time := t'.end_time } else t'
    else t
  let has_changed := t1.progress != p
  (if has_changed then { t1 with progress := p } else t1, has_changed)

/-- Model of `round(time_millis / 1000)`: Python 3 `round` applied to the true quotient,
rounding halves to the nearest even integer. -/
def pyRoundDiv1000 (time_millis : Int) : Int :=
  let q := time_millis / 1000
  let r := time_millis % 1000
  if 500 < r then q + 1
  else if r < 500 then q
  else if q % 2 = 0 then q else q + 1

/-- Loop `while seconds > 59: seconds -= 60; minutes += 1` -/
def loopSeconds (seconds minutes : Int) : Int × Int :=
  if 59 < seconds then loopSeconds (seconds - 60) (minutes + 1) else (seconds, minutes)
termination_by seconds.toNat
decreasing_by omega

/-- Loop `while minutes > 59: minutes -= 60; hours += 1` -/
def loopMinutes (minutes hours : Int) : Int × Int :=
  if 59 < minutes then loopMinutes (minutes - 60) (hours + 1) else (minutes, hours)
termination_by minutes.toNat
decreasing_by omega

/-- Loop `while hours > 23: hours -= 24; days += 1` -/
def loopHours (hours days : Int) : Int × Int :=
  if 23 < hours then loopHours (hours - 24) (days + 1) else (hours, days)
termination_by hours.toNat
decreasing_by omega

/-- Loop `while days > 6: hours -= 7; weeks += 1`.  The body never changes `days`,
so the loop cannot terminate once it is entered; the model uses fuel and
returns `none` when the fuel runs out inside the loop. -/
def loopDays : Nat → Int → Int → Int → Option (Int × Int × Int)
  | 0, days, hours, weeks => if 6 < days then none else some (days, hours, weeks)
  | fuel + 1, days, hours, weeks =>
    if 6 < days then loopDays fuel days (hours - 7) (weeks + 1)
    else some (days, hours, weeks)

/-- The final `if/elif` chain of `millis_to_human_readable` building the output
string from the decomposed units. -/
def humanFormat (weeks days hours minutes seconds : Int) : String :=
  if 0 < weeks then
    toString weeks ++ " w " ++ toString days ++ " d " ++ toString hours ++ " h " ++
      toString minutes ++ " min " ++ toString seconds ++ " s"
  else if 0 < days then
    toString days ++ " d " ++ toString hours ++ " h " ++
      toString minutes ++ " min " ++ toString seconds ++ " s"
  else if 0 < hours then
    toString hours ++ " h " ++ toString minutes ++ " min " ++ toString seconds ++ " s"
  else if 0 < minutes then
    toString minutes ++ " min " ++ toString seconds ++ " s"
  else if 0 < seconds then
    toString seconds ++ " s"
  else ""

/-- Model of `MultiprocessingLogger.millis_to_human_readable`.  `none` means the Python
function does not terminate on this input however much fuel is granted to the
week loop. -/
def millis_to_human_readable (fuel : Nat) (time_millis : Int) : Option String :=
  let p1 := loopSeconds (pyRoundDiv1000 time_millis) 0
  let p2 := loopMinutes p1.2 0
  let p3 := loopHours p2.2 0
  match loopDays fuel p3.2 p3.1 0 with
  | none => none
  | some (days, hours, weeks) => some (humanFormat weeks days hours p2.1 p1.1)

/-- One rendered progress bar line: the data `print_progress_bar` draws for a
task (identifier, progress, total, and the elapsed-time string if displayed). -/
structure RenderBar where
  tid : String
  progress : Int
  total : Int
  elapsed : Option String
deriving DecidableEq

/-- One full console repaint: the progress bars, then the message ring, then
the exception ring, as `redraw` writes them to stdout. -/
structure Render where
  bars : List RenderBar
  messages : List String
  exceptions : List String
deriving DecidableEq

/-- The state of the `MultiprocessingLogger` process.  `fileLog` models the
durable file sink (`self.log`): every message forwarded to the python logging
logger, with its level. -/
structure LoggerState where
  tasks : List (String × TaskProgress)
  to_delete : List String
  messages : List String
  exceptions : List String
  changes_made : Bool
  refresh_timer : Int
  redraw_frequency_millis : Int
  permanent_progressbar_slots : Int
  level : PyLevel
  task_millis_to_removal : Int
  longest_bar_prefix_size : Nat
  fileLog : List (PyLevel × String)
deriving DecidableEq

/-- The payload of a `SetConfigurationCommand`. -/
structure ConfigCommand where
  message_number : Nat
  exception_number : Nat
  permanent_progressbar_slots : Int
  redraw_frequency_millis : Int
  level : PyLevel
  task_millis_to_removal : Int
deriving DecidableEq

/-- Ordered-dictionary lookup (`task_id in self.tasks` / `self.tasks[task_id]`). -/
def odLookup (k : String) : List (String × TaskProgress) → Option TaskProgress
  | [] => none
  | (k', t) :: rest => if k' = k then some t else odLookup k rest

/-- Ordered-dictionary assignment `self.tasks[task_id] = task`: replaces in place if
the key exists (keeping its position), otherwise appends. -/
def odSet : List (String × TaskProgress) → String → TaskProgress → List (String × TaskProgress)
  | [], k, t => [(k, t)]
  | (k', t') :: rest, k, t =>
    if k' = k then (k, t) :: rest else (k', t') :: odSet rest k t

/-- Deletion `del self.tasks[task_id]`. -/
def odErase : List (String × TaskProgress) → String → List (String × TaskProgress)
  | [], _ => []
  | (k', t') :: rest, k => if k' = k then rest else (k', t') :: odErase rest k

/-- Model of `MultiprocessingLogger.longest_bar_prefix_value`: length of the longest
task prefix. -/
def longest_bar_prefix_value (tasks : List (String × TaskProgress)) : Nat :=
  tasks.foldl (fun longest p =>
    if p.2.prefixStr.length > longest then p.2.prefixStr.length else longest) 0

/-- Model of `MultiprocessingLogger.set_configuration`: applies new thresholds and
resizes the two ring buffers without clearing them.  The messages ring evicts
at index 0 and is padded at index 0; the exceptions ring evicts at the last
index and is padded at the last index. -/
def set_configuration (s : LoggerState) (c : ConfigCommand) : LoggerState :=
  let s := { s with
    permanent_progressbar_slots := c.permanent_progressbar_slots
    redraw_frequency_millis := c.redraw_frequency_millis
    level := c.level
    task_millis_to_removal := c.task_millis_to_removal }
  -- Do not clear exceptions if the user changes the configuration during runtime
  let exceptions :=
    if s.exceptions ≠ [] then
      let current_length := s.exceptions.length
      if c.exception_number < current_length then
        -- Delete exceptions from the end to desired index to keep most recent exceptions
        s.exceptions.take (current_length - (current_length - c.exception_number))
      else if c.exception_number > current_length then
        -- Add empty slots at the end
        s.exceptions ++ List.replicate (c.exception_number - current_length) ""
      else s.exceptions
    else List.replicate c.exception_number ""
  -- Do not clear messages if the user changes the configuration during runtime
  let messages :=
    if s.messages ≠ [] then
      let current_length := s.messages.length
      if c.message_number < current_length then
        -- Delete messages from 0 to desired index to keep most recent messages
        s.messages.drop (current_length - c.message_number)
      else if c.message_number > current_length then
        -- Add empty slots at 0
        List.replicate (c.message_number - current_length) "" ++ s.messages
      else s.messages
    else List.replicate c.message_number ""
  { s with exceptions := exceptions, messages := messages }

/-- The state of a fresh `MultiprocessingLogger` before its constructor applies
the initial configuration: both rings unset (Python `None`, modelled as `[]`,
both being falsy), no tasks, the redraw timer holding the clock value taken at
class-body evaluation time. -/
def emptyLoggerState (timer0 : Int) : LoggerState :=
  { tasks := []
    to_delete := []
    messages := []
    exceptions := []
    changes_made := false
    refresh_timer := timer0
    redraw_frequency_millis := 0
    permanent_progressbar_slots := 0
    level := .info
    task_millis_to_removal := 0
    longest_bar_prefix_size := 0
    fileLog := [] }

/-- Model of `MultiprocessingLogger.__init__`: stores the queue and applies the initial
configuration through `set_configuration`. -/
def initLoggerState (timer0 : Int) (c : ConfigCommand) : LoggerState :=
  set_configuration (emptyLoggerState timer0) c

/-- The state changes of `print_progress_bar` for one task together with the
elapsed-time string it draws (`none` when `display_time` is off).  Returns
`none` when the Python call would not terminate (week-loop overflow inside
`millis_to_human_readable`). -/
def print_progress_bar (fuel : Nat) (t : TaskProgress) (now : Int) :
    Option (TaskProgress × Option String) :=
  if t.display_time then
    if !timeFalsy t.end_time then
      -- If the task has ended, stop the chrono
      if strFalsy t.elapsed_time_at_end then
        match millis_to_human_readable fuel (t.end_time.getD 0 - t.begin_time.getD 0) with
        | none => none
        | some str =>
          some ({ t with elapsed_time_at_end := some str }, some str)
      else some (t, t.elapsed_time_at_end)
    else
      -- If task is new then start the chrono
      let t := if timeFalsy t.begin_time then { t with begin_time := some now } else t
      match millis_to_human_readable fuel (now - t.begin_time.getD 0) with
      | none => none
      | some str => some (t, some str)
  else some (t, none)

/-- The per-task body of the sweep loop inside `redraw`: clamp a completed
non-keep-alive task to its total, start or check its removal chrono, then draw
its progress bar. -/
def sweepTask (fuel : Nat) (task_millis_to_removal now : Int) (to_delete : List String)
    (tid : String) (t : TaskProgress) :
    Option (TaskProgress × List String × RenderBar) :=
  let p :=
    if t.progress ≥ t.total && !t.keep_alive then
      -- Prevent bar overflow
      let t := { t with progress := t.total }
      -- Start task's timeout chrono
      if timeFalsy t.timeout_chrono then
        ({ t with timeout_chrono := some now }, to_delete)
      -- If task's chrono has reached the maximum timeout time, mark it for deletion
      else if now - t.timeout_chrono.getD 0 ≥ task_millis_to_removal then
        (t, to_delete ++ [tid])
      else (t, to_delete)
    else (t, to_delete)
  match print_progress_bar fuel p.1 now with
  | none => none
  | some (t', elapsed) =>
    some (t', p.2, { tid := tid, progress := t'.progress, total := t'.total, elapsed := elapsed })

/-- The sweep loop of `redraw` over all tasks in registry order. -/
def sweepTasks (fuel : Nat) (task_millis_to_removal now : Int) :
    List String → List (String × TaskProgress) →
    Option (List (String × TaskProgress) × List String × List RenderBar)
  | to_delete, [] => some ([], to_delete, [])
  | to_delete, (tid, t) :: rest =>
    match sweepTask fuel task_millis_to_removal now to_delete tid t with
    | none => none
    | some (t', to_delete', bar) =>
      match sweepTasks fuel task_millis_to_removal now to_delete' rest with
      | none => none
      | some (rest', to_delete'', bars) => some ((tid, t') :: rest', to_delete'', bar :: bars)

/-- Model of `MultiprocessingLogger.redraw`.  Returns the new state and `some render`
when a repaint happened, `(s, none)` when the gate deferred it; the outer
`none` means the repaint would not terminate. -/
def redraw (fuel : Nat) (s : LoggerState) (now : Int) : Option (LoggerState × Option Render) :=
  -- Check if the refresh time lapse has elapsed and if a change requires to redraw
  if ¬now - s.refresh_timer > s.redraw_frequency_millis ∨ ¬s.changes_made then some (s, none)
  else
    -- If yes, then reset change indicator and chrono
    let s := { s with changes_made := false, refresh_timer := now }
    -- Delete tasks that have been marked for deletion
    let s :=
      if 0 < s.to_delete.length then
        let tasks := s.to_delete.foldl (fun ts tid => odErase ts tid) s.tasks
        let s := { s with tasks := tasks, to_delete := [] }
        -- If a task has been deleted, recalculate the maximum prefix length
        { s with longest_bar_prefix_size := longest_bar_prefix_value s.tasks }
      else s
    match sweepTasks fuel s.task_millis_to_removal now s.to_delete s.tasks with
    | none => none
    | some (tasks', to_delete', bars) =>
      let s := { s with tasks := tasks', to_delete := to_delete' }
      some (s, some { bars := bars, messages := s.messages, exceptions := s.exceptions })

/-- The ring-buffer step of `append_message`: delete the first (oldest)
message when the list is non-empty, then append the new one at the end. -/
def pushMessage (messages : List String) (message : String) : List String :=
  (if 0 < messages.length then messages.tail else messages) ++ [message]

/-- The ring-buffer step of `append_exception`: delete the last (oldest)
exception when the list is non-empty, then insert the new one at index 0. -/
def pushException (exceptions : List String) (stacktrace : String) : List String :=
  stacktrace :: (if 0 < exceptions.length then exceptions.dropLast else exceptions)

/-- Model of `MultiprocessingLogger.append_message`: push onto the message ring, mark
dirty, redraw. -/
def append_message (fuel : Nat) (s : LoggerState) (message : String) (now : Int) :
    Option (LoggerState × Option Render) :=
  let s := { s with messages := pushMessage s.messages message, changes_made := true }
  redraw fuel s now

/-- Model of `MultiprocessingLogger.append_exception`: push onto the exception ring,
mark dirty, redraw. -/
def append_exception (fuel : Nat) (s : LoggerState) (stacktrace : String) (now : Int) :
    Option (LoggerState × Option Render) :=
  let s := { s with exceptions := pushException s.exceptions stacktrace, changes_made := true }
  redraw fuel s now

/-- Model of `MultiprocessingLogger.flush`: zero the redraw timer, force the dirty
flag, redraw. -/
def flush (fuel : Nat) (s : LoggerState) (now : Int) : Option (LoggerState × Option Render) :=
  let s := { s with refresh_timer := 0 }
  let s := { s with changes_made := true }
  redraw fuel s now

/-- Model of `MultiprocessingLogger.set_level` (the file logger's own threshold is
internal to the python logging module and not part of the observable state). -/
def set_level (s : LoggerState) (level : PyLevel) : LoggerState :=
  { s with level := level }

/-- Model of `MultiprocessingLogger.set_task`: store (or overwrite) the task, refresh
the longest-prefix width, mark dirty, redraw. -/
def set_task (fuel : Nat) (s : LoggerState) (task_id : String) (t : TaskProgress) (now : Int) :
    Option (LoggerState × Option Render) :=
  let s := { s with tasks := odSet s.tasks task_id t }
  let s := { s with longest_bar_prefix_size := longest_bar_prefix_value s.tasks }
  let s := { s with changes_made := true }
  redraw fuel s now

/-- Model of `MultiprocessingLogger.update`: if the task exists, apply `set_progress`;
only when it reports a change, mark dirty and redraw. -/
def update (fuel : Nat) (s : LoggerState) (task_id : String) (progress now : Int) :
    Option (LoggerState × Option Render) :=
  match odLookup task_id s.tasks with
  | none => some (s, none)
  | some t =>
    let r := set_progress t progress now
    let s1 := { s with tasks := odSet s.tasks task_id r.1 }
    if r.2 then
      let s2 := { s1 with changes_made := true }
      redraw fuel s2 now
    else
      some (s1, none)

/-- The console format of one log line,
`'{} [{}]\t{}'.format(self.current_timestamp(), LEVEL, command.text)` plus the
trailing newline; the timestamp string is passed in as `ts`. -/
def consoleFormat (ts : String) (lvl : PyLevel) (text : String) : String :=
  ts ++ " [" ++ levelName lvl ++ "]\t" ++ text ++ "\n"

/-- The console filter of `MultiprocessingLogger.debug/info/warning/error/critical`:
each method compares `self.level` by equality against an explicit chain of the
standard constants. -/
def consolePass (minLevel msgLevel : PyLevel) : Bool :=
  match msgLevel with
  | .debug => minLevel == .debug
  | .info => minLevel == .debug || minLevel == .info
  | .warning => minLevel == .debug || minLevel == .info || minLevel == .warning
  | .error =>
    minLevel == .debug || minLevel == .info || minLevel == .warning || minLevel == .error
  | .critical =>
    minLevel == .debug || minLevel == .info || minLevel == .warning || minLevel == .error ||
      minLevel == .critical

/-- The common shape of the five message handlers dispatched by `run` for a
`LogMessageCommand`: on console pass, format, push to the ring (which redraws),
mark dirty and redraw again; in every case forward the text to the file sink.
Returns the state, whether the console filter passed, and whether a redraw was
attempted. -/
def log_message (fuel : Nat) (s : LoggerState) (msgLevel : PyLevel) (text ts : String)
    (now : Int) : Option (LoggerState × Bool × Bool) :=
  if consolePass s.level msgLevel then
    let message := consoleFormat ts msgLevel text
    match append_message fuel s message now with
    | none => none
    | some (s1, _) =>
      let s2 := { s1 with changes_made := true }
      match redraw fuel s2 now with
      | none => none
      | some (s3, _) =>
        some ({ s3 with fileLog := s3.fileLog ++ [(msgLevel, fileIndent msgLevel ++ text)] },
          true, true)
  else
    some ({ s with fileLog := s.fileLog ++ [(msgLevel, fileIndent msgLevel ++ text)] },
      false, false)

/-- Model of `MultiprocessingLogger.throw`: format the stacktrace message, push it onto
the exception ring (which redraws), mark dirty, redraw again, and forward to
the file sink at critical level. -/
def throwCmd (fuel : Nat) (s : LoggerState) (pid : Int) (stacktrace : String)
    (process_title : Option String) (ts : String) (now : Int) :
    Option (LoggerState × Option Render) :=
  let message := ts ++ " [EXCEPTION]\t[Process " ++ toString pid ++
    (match process_title with | some title => " - " ++ title | none => "") ++
    "]:\n" ++ stacktrace ++ "\n"
  match append_exception fuel s message now with
  | none => none
  | some (s1, _) =>
    let s2 := { s1 with changes_made := true }
    match redraw fuel s2 now with
    | none => none
    | some (s3, r) =>
      some ({ s3 with fileLog := s3.fileLog ++ [(.critical, "\t" ++ message)] }, r)

/-- The commands the logger process receives over its queue, as dispatched by
`MultiprocessingLogger.run` (the timestamp strings that Python reads from the
wall clock travel with the command in this model). -/
inductive Command
  | logMessage (level : PyLevel) (text ts : String)
  | updateProgress (task_id : String) (progress : Int)
  | newTask (task_id : String) (t : TaskProgress)
  | flushCmd
  | stacktrace (pid : Int) (st : String) (process_title : Option String) (ts : String)
  | setConfiguration (c : ConfigCommand)
  | setLevel (level : PyLevel)

/-- One iteration of the `run` dispatch loop, for one dequeued command handled
at clock reading `now`. -/
def processCommand (fuel : Nat) (s : LoggerState) (c : Command) (now : Int) :
    Option (LoggerState × Option Render) :=
  match c with
  | .logMessage lvl text ts =>
    match log_message fuel s lvl text ts now with
    | none => none
    | some (s', _, _) => some (s', none)
  | .updateProgress task_id progress => update fuel s task_id progress now
  | .newTask task_id t => set_task fuel s task_id t now
  | .flushCmd => flush fuel s now
  | .stacktrace pid st title ts => throwCmd fuel s pid st title ts now
  | .setConfiguration c => some (set_configuration s c, none)
  | .setLevel lvl => some (set_level s lvl, none)

/-- Handle a list of timed commands in order. -/
def runCommands (fuel : Nat) : LoggerState → List (Command × Int) → Option LoggerState
  | s, [] => some s
  | s, (c, now) :: rest =>
    match processCommand fuel s c now with
    | none => none
    | some (s', _) => runCommands fuel s' rest

/-- Fold a list of `(progress, now)` updates through `set_progress`, as a
sequence of `UpdateProgressCommand`s reaching one task does. -/
def applyUpdates (t : TaskProgress) (ups : List (Int × Int)) : TaskProgress :=
  ups.foldl (fun t pn => (set_progress t pn.1 pn.2).1) t

/-- Modelled from the spec's words for comparison with the code: the
human-readable elapsed string as the modular decomposition of the rounded
second count, printing only the non-zero units from the largest down. -/
def specNonzeroUnits (ms : Int) : String :=
  let R := pyRoundDiv1000 ms
  let parts := [(R / 604800, "w"), (R / 86400 % 7, "d"), (R / 3600 % 24, "h"),
    (R / 60 % 60, "min"), (R % 60, "s")]
  String.intercalate " "
    ((parts.filter (fun p => 0 < p.1)).map (fun p => toString p.1 ++ " " ++ p.2))

/-- The modular decomposition of the rounded second count rendered with the
code's printing rule: the format is chosen by the largest non-zero unit and
all units from that one down are printed, zero-valued ones included. -/
def decompFromLargest (ms : Int) : String :=
  humanFormat (pyRoundDiv1000 ms / 604800) (pyRoundDiv1000 ms / 86400 % 7)
    (pyRoundDiv1000 ms / 3600 % 24) (pyRoundDiv1000 ms / 60 % 60) (pyRoundDiv1000 ms % 60)

/-- Modelled from the spec's words for comparison with the code: growing the
message ring pads it with empty slots at the insertion end; messages are
inserted at the end of the list. -/
def specGrowMessages (messages : List String) (message_number : Nat) : List String :=
  messages ++ List.replicate (message_number - messages.length) ""

/-- A task used to instantiate general theorems: total 10, no time display. -/
def wTask : TaskProgress := mkTaskProgress 10 "" "" 0 60 false false

/-- A task used to instantiate general theorems: total 10, time display on. -/
def c2Task : TaskProgress := mkTaskProgress 10 "" "" 0 60 false true

/-- A small logger state used to instantiate general theorems. -/
def wState : LoggerState :=
  { tasks := []
    to_delete := []
    messages := ["m1"]
    exceptions := ["e1"]
    changes_made := true
    refresh_timer := 10
    redraw_frequency_millis := 5
    permanent_progressbar_slots := 0
    level := .info
    task_millis_to_removal := 500
    longest_bar_prefix_size := 0
    fileLog := [] }

/-- The configuration of the removal scenario: zero redraw interval and zero
removal delay. -/
def c6Config : ConfigCommand :=
  { message_number := 2
    exception_number := 1
    permanent_progressbar_slots := 0
    redraw_frequency_millis := 0
    level := .info
    task_millis_to_removal := 0 }

/-- Initial state of the removal scenario. -/
def c6Start : LoggerState := initLoggerState 0 c6Config

/-- The removal scenario: create task `t` with `total = 10`,
`keep_alive = false`, send the ten sequential updates `1..10`, then trigger one
redraw tick (a flush at time 12, past the zero removal threshold that started
at the redraw of time 11). -/
def c6Commands : List (Command × Int) :=
  [(.newTask "t" wTask, 1),
   (.updateProgress "t" 1, 2), (.updateProgress "t" 2, 3), (.updateProgress "t" 3, 4),
   (.updateProgress "t" 4, 5), (.updateProgress "t" 5, 6), (.updateProgress "t" 6, 7),
   (.updateProgress "t" 7, 8), (.updateProgress "t" 8, 9), (.updateProgress "t" 9, 10),
   (.updateProgress "t" 10, 11),
   (.flushCmd, 12)]

/-- The removal scenario extended by one more redraw tick. -/
def c6CommandsMore : List (Command × Int) := c6Commands ++ [(.flushCmd, 13)]

/-- A logger state holding three messages and one exception, for the
reconfiguration theorems. -/
def c7State : LoggerState := { wState with messages := ["a", "b", "c"], exceptions := ["x"] }

/-- A reconfiguration that grows the message ring from 3 to 5 slots. -/
def c7Grow : ConfigCommand :=
  { message_number := 5
    exception_number := 1
    permanent_progressbar_slots := 0
    redraw_frequency_millis := 5
    level := .info
    task_millis_to_removal := 500 }

/-- A reconfiguration that shrinks the message ring from 3 to 2 slots and
grows the exception ring from 1 to 2 slots. -/
def c7Shrink : ConfigCommand :=
  { message_number := 2
    exception_number := 2
    permanent_progressbar_slots := 0
    redraw_frequency_millis := 5
    level := .info
    task_millis_to_removal := 500 }

/-- A state with one registered task, used to instantiate the no-op update
theorem. -/
def c10State : LoggerState :=
  { wState with tasks := [("t", { wTask with progress := 4 })] }

/-- The state after a successful repaint of `wState` at time 16. -/
def c4After : LoggerState := { wState with changes_made := false, refresh_timer := 16 }

/-- The frame painted from `wState` (no tasks, one message, one exception). -/
def c4Ren : Render := { bars := [], messages := ["m1"], exceptions := ["e1"] }

/-- The state after `wState` handles a passing warning message at time 16:
the ring (capacity 1) holds the formatted line, the first redraw fired and the
second attempt left the flag set, and the file sink received the text. -/
def c8After : LoggerState :=
  { wState with
    messages := ["T [WARNING]\tboom\n"]
    changes_made := true
    refresh_timer := 16
    fileLog := [(.warning, "\tboom")] }

/-- A completed task whose elapsed string has been frozen to a non-empty
value, used to instantiate the freeze theorem. -/
def c2Frozen : TaskProgress :=
  { c2Task with end_time := some 9, begin_time := some 5, elapsed_time_at_end := some "4 s" }

/-- The rounded quotient is non-negative on non-negative input. -/
theorem pyRoundDiv1000_nonneg (ms : Int) (h : 0 ≤ ms) : 0 ≤ pyRoundDiv1000 ms := by
  simp only [pyRoundDiv1000]
  split_ifs <;> omega

/-- The seconds loop computes division by 60 with remainder. -/
theorem loopSeconds_eq (s m : Int) (hs : 0 ≤ s) : loopSeconds s m = (s % 60, m + s / 60) := by
  rw [loopSeconds]
  split
  · rw [loopSeconds_eq (s - 60) (m + 1) (by omega)]
    refine Prod.ext ?_ ?_ <;> simp <;> omega
  · refine Prod.ext ?_ ?_ <;> simp <;> omega
termination_by s.toNat
decreasing_by omega

/-- The minutes loop computes division by 60 with remainder. -/
theorem loopMinutes_eq (m h : Int) (hm : 0 ≤ m) : loopMinutes m h = (m % 60, h + m / 60) := by
  rw [loopMinutes]
  split
  · rw [loopMinutes_eq (m - 60) (h + 1) (by omega)]
    refine Prod.ext ?_ ?_ <;> simp <;> omega
  · refine Prod.ext ?_ ?_ <;> simp <;> omega
termination_by m.toNat
decreasing_by omega

/-- The hours loop computes division by 24 with remainder. -/
theorem loopHours_eq (h d : Int) (hh : 0 ≤ h) : loopHours h d = (h % 24, d + h / 24) := by
  rw [loopHours]
  split
  · rw [loopHours_eq (h - 24) (d + 1) (by omega)]
    refine Prod.ext ?_ ?_ <;> simp <;> omega
  · refine Prod.ext ?_ ?_ <;> simp <;> omega
termination_by h.toNat
decreasing_by omega

/-- Once entered with more than 6 days, the week loop consumes all fuel:
the Python loop never terminates. -/
theorem loopDays_stuck (fuel : Nat) (d h w : Int) (hd : 6 < d) :
    loopDays fuel d h w = none := by
  induction fuel generalizing h w with
  | zero => simp [loopDays, hd]
  | succ f ih => simp only [loopDays, if_pos hd]; exact ih _ _

/-- With at most 6 days the week loop returns immediately, whatever the fuel. -/
theorem loopDays_done (fuel : Nat) (d h w : Int) (hd : ¬6 < d) :
    loopDays fuel d h w = some (d, h, w) := by
  cases fuel <;> simp [loopDays, hd]

/-- For inputs rounding to less than 7 days of seconds, the human-readable
conversion terminates and equals the modular decomposition printed from the
largest non-zero unit down. -/
theorem millis_decomp (fuel : Nat) (ms : Int) (h0 : 0 ≤ ms)
    (hlt : pyRoundDiv1000 ms < 604800) :
    millis_to_human_readable fuel ms = some (decompFromLargest ms) := by
  have h0R : 0 ≤ pyRoundDiv1000 ms := pyRoundDiv1000_nonneg ms h0
  simp only [millis_to_human_readable, decompFromLargest]
  generalize hR : pyRoundDiv1000 ms = R
  rw [hR] at h0R hlt
  simp only [loopSeconds_eq R 0 h0R, zero_add]
  have hm : (0 : Int) ≤ R / 60 := by omega
  simp only [loopMinutes_eq (R / 60) 0 hm, zero_add]
  have hh : (0 : Int) ≤ R / 60 / 60 := by omega
  simp only [loopHours_eq (R / 60 / 60) 0 hh, zero_add]
  have hd6 : ¬(6 : Int) < R / 60 / 60 / 24 := by omega
  simp only [loopDays_done fuel (R / 60 / 60 / 24) (R / 60 / 60 % 24) 0 hd6]
  have h1 : R / 604800 = 0 := by omega
  have h2 : R / 86400 % 7 = R / 60 / 60 / 24 := by omega
  have h3 : R / 3600 % 24 = R / 60 / 60 % 24 := by omega
  rw [h1, h2, h3]

/-- C5: the claim says `millis_to_human_readable` is total on non-negative
inputs, in particular at 7 days.  The code is wrong: at 604800000 ms the week
loop decrements `hours` instead of `days`, so it never terminates; the model
returns `none` for every amount of fuel. -/
theorem fancy_c5_week_loop_diverges (fuel : Nat) :
    millis_to_human_readable fuel 604800000 = none := by
  have hR : pyRoundDiv1000 604800000 = 604800 := by decide
  have e1 : loopSeconds 604800 0 = (0, 10080) := by
    rw [loopSeconds_eq 604800 0 (by norm_num)]; norm_num
  have e2 : loopMinutes 10080 0 = (0, 168) := by
    rw [loopMinutes_eq 10080 0 (by norm_num)]; norm_num
  have e3 : loopHours 168 0 = (0, 7) := by
    rw [loopHours_eq 168 0 (by norm_num)]; norm_num
  simp only [millis_to_human_readable, hR, e1, e2, e3]
  rw [loopDays_stuck fuel 7 0 0 (by norm_num)]

/-- C9 counterexample: at 3600000 ms (one hour sharp) the code renders
"1 h 0 min 0 s", printing the zero-valued minute and second units, while the
claim's reading (only the non-zero units are printed) demands "1 h". -/
theorem fancy_c9_counterexample :
    millis_to_human_readable 0 3600000 = some "1 h 0 min 0 s" ∧
    specNonzeroUnits 3600000 = "1 h" ∧
    millis_to_human_readable 0 3600000 ≠ some (specNonzeroUnits 3600000) := by
  have h := millis_decomp 0 3600000 (by norm_num) (by decide)
  have hd : decompFromLargest 3600000 = "1 h 0 min 0 s" := by decide
  refine ⟨h.trans (by rw [hd]), by decide, ?_⟩
  rw [h, hd]; decide

/-- C9 amended: for durations whose rounded second count is below 7 days, the
rendered elapsed string is the modular decomposition (60 s, 60 min, 24 h
carries) printed with the format of the largest non-zero unit, all lower units
printed including zero ones, and the string is empty when 0 seconds elapsed.
(For 7 days or more the function does not terminate; see the week-loop
defect.) -/
theorem fancy_c9_amended (fuel : Nat) (ms : Int) (h0 : 0 ≤ ms)
    (hlt : pyRoundDiv1000 ms < 604800) :
    millis_to_human_readable fuel ms = some (decompFromLargest ms) ∧
    (pyRoundDiv1000 ms = 0 → decompFromLargest ms = "") := by
  refine ⟨millis_decomp fuel ms h0 hlt, fun h => ?_⟩
  simp [decompFromLargest, humanFormat, h]

/-- Witness for the amended C9 theorem at 3661000 ms (1 h 1 min 1 s) and at
400 ms (rounds to 0 s, empty string). -/
theorem fancy_c9_amended_witness :
    ((0 : Int) ≤ 3661000 ∧ pyRoundDiv1000 3661000 < 604800 ∧
      millis_to_human_readable 0 3661000 = some (decompFromLargest 3661000) ∧
      decompFromLargest 3661000 = "1 h 1 min 1 s") ∧
    (pyRoundDiv1000 400 = 0 ∧ decompFromLargest 400 = "") :=
  ⟨⟨by norm_num, by decide, (fancy_c9_amended 0 3661000 (by norm_num) (by decide)).1,
      by decide⟩,
    ⟨by decide, (fancy_c9_amended 0 400 (by norm_num) (by decide)).2 (by decide)⟩⟩

/-- The progress stored by `set_progress` is always the clamped value (when
nothing changed, the old value already equals it). -/
theorem set_progress_fst_progress (t : TaskProgress) (p now : Int) :
    (set_progress t p now).1.progress = clampProgress t p := by
  simp only [set_progress]
  split_ifs <;> simp_all

/-- The change flag returned by `set_progress` compares the old progress with
the clamped value. -/
theorem set_progress_snd (t : TaskProgress) (p now : Int) :
    (set_progress t p now).2 = (t.progress != clampProgress t p) := by
  simp only [set_progress]
  split_ifs <;> rfl

/-- The total of a task is never modified by `set_progress`. -/
theorem set_progress_total (t : TaskProgress) (p now : Int) :
    (set_progress t p now).1.total = t.total := by
  simp only [set_progress]
  split_ifs <;> rfl

/-- Characterization of the end-time side effect of `set_progress`: it is
overwritten with the current clock on every call whose clamped value equals
the total while the time display is on, and untouched otherwise. -/
theorem set_progress_end_time (t : TaskProgress) (p now : Int) :
    (set_progress t p now).1.end_time =
      if clampProgress t p = t.total ∧ t.display_time = true then some now else t.end_time := by
  simp only [set_progress]
  split_ifs <;> simp_all

/-- Clamping keeps a value inside an already-valid range. -/
theorem clampProgress_mem (t : TaskProgress) (p : Int) (h0 : 0 ≤ t.progress)
    (h1 : t.progress ≤ t.total) : 0 ≤ clampProgress t p ∧ clampProgress t p ≤ t.total := by
  simp only [clampProgress]
  split_ifs <;> omega

/-- C1: starting from any in-range task state (in particular a fresh task,
whose progress is 0), every sequence of progress updates, including negative
and above-total values, keeps `0 ≤ progress ≤ total`; out-of-range inputs are
clamped by the total function `set_progress`, never rejected. -/
theorem fancy_c1_clamp_invariant (t : TaskProgress) (ups : List (Int × Int))
    (h0 : 0 ≤ t.progress) (h1 : t.progress ≤ t.total) :
    0 ≤ (applyUpdates t ups).progress ∧
    (applyUpdates t ups).progress ≤ (applyUpdates t ups).total ∧
    (applyUpdates t ups).total = t.total := by
  induction ups generalizing t with
  | nil => exact ⟨h0, h1, rfl⟩
  | cons u rest ih =>
    have hp := set_progress_fst_progress t u.1 u.2
    have ht := set_progress_total t u.1 u.2
    have hc := clampProgress_mem t u.1 h0 h1
    have hrec := ih (set_progress t u.1 u.2).1 (by rw [hp]; exact hc.1)
      (by rw [hp, ht]; exact hc.2)
    have heq : applyUpdates t (u :: rest) = applyUpdates (set_progress t u.1 u.2).1 rest := by
      simp [applyUpdates]
    rw [heq]
    exact ⟨hrec.1, hrec.2.1, hrec.2.2.trans ht⟩

/-- Witness for the clamp invariant on a fresh task receiving an overflowing,
a negative and an ordinary update. -/
theorem fancy_c1_witness :
    (0 : Int) ≤ wTask.progress ∧ wTask.progress ≤ wTask.total ∧
    (0 ≤ (applyUpdates wTask [(15, 1), (-3, 2), (7, 3)]).progress ∧
     (applyUpdates wTask [(15, 1), (-3, 2), (7, 3)]).progress ≤
       (applyUpdates wTask [(15, 1), (-3, 2), (7, 3)]).total ∧
     (applyUpdates wTask [(15, 1), (-3, 2), (7, 3)]).total = wTask.total) :=
  ⟨by decide, by decide, fancy_c1_clamp_invariant wTask _ (by decide) (by decide)⟩

/-- C2 counterexample: with the time display on, a second completing update
overwrites `end_time` (5 then 9), so the field is not set at most once. -/
theorem fancy_c2_counterexample :
    (set_progress c2Task 10 5).1.end_time = some 5 ∧
    (set_progress (set_progress c2Task 10 5).1 10 9).1.end_time = some 9 ∧
    (set_progress (set_progress c2Task 10 5).1 10 9).1.end_time ≠
      (set_progress c2Task 10 5).1.end_time := by
  refine ⟨by decide, by decide, by decide⟩

/-- C2 amended: `end_time` is set to the current clock on every update whose
clamped value equals the total while the time display is on (so it records the
last completing update, not only the first), and is untouched by any other
update; the frozen elapsed string `elapsed_time_at_end`, once set to a
non-empty string, is never overwritten by later repaints. -/
theorem fancy_c2_amended :
    (∀ (t : TaskProgress) (p now : Int),
      clampProgress t p = t.total → t.display_time = true →
      (set_progress t p now).1.end_time = some now) ∧
    (∀ (t : TaskProgress) (p now : Int),
      clampProgress t p ≠ t.total ∨ t.display_time = false →
      (set_progress t p now).1.end_time = t.end_time) ∧
    (∀ (fuel : Nat) (t : TaskProgress) (now : Int) (str : String)
        (out : TaskProgress × Option String),
      t.elapsed_time_at_end = some str → str ≠ "" →
      print_progress_bar fuel t now = some out →
      out.1.elapsed_time_at_end = some str) := by
  refine ⟨?_, ?_, ?_⟩
  · intro t p now h1 h2
    rw [set_progress_end_time, if_pos ⟨h1, h2⟩]
  · intro t p now h
    rw [set_progress_end_time, if_neg]
    rcases h with h | h
    · exact fun hc => h hc.1
    · intro hc
      rw [h] at hc
      exact absurd hc.2 (by simp)
  · intro fuel t now str out he hne hpr
    have hsf : strFalsy t.elapsed_time_at_end = false := by simp [he, strFalsy, hne]
    simp only [print_progress_bar] at hpr
    rw [hsf] at hpr
    simp only [Bool.false_eq_true, if_false] at hpr
    split at hpr
    · split at hpr
      · cases hpr
        exact he
      · split at hpr
        · exact absurd hpr (by simp)
        · cases hpr
          split
          · exact he
          · exact he
    · cases hpr
      exact he

/-- Witness for the amended C2 theorem: a completing update stamps the clock,
a non-completing one leaves the field, and a repaint keeps a frozen non-empty
elapsed string. -/
theorem fancy_c2_amended_witness :
    (clampProgress c2Task 10 = c2Task.total ∧ c2Task.display_time = true ∧
      (set_progress c2Task 10 5).1.end_time = some 5) ∧
    (clampProgress c2Task 3 ≠ c2Task.total ∧
      (set_progress c2Task 3 5).1.end_time = c2Task.end_time) ∧
    (c2Frozen.elapsed_time_at_end = some "4 s" ∧
      print_progress_bar 0 c2Frozen 20 = some (c2Frozen, some "4 s") ∧
      c2Frozen.elapsed_time_at_end = some "4 s") :=
  ⟨⟨by decide, by decide, fancy_c2_amended.1 c2Task 10 5 (by decide) (by decide)⟩,
   ⟨by decide, fancy_c2_amended.2.1 c2Task 3 5 (Or.inl (by decide))⟩,
   ⟨by decide, by decide,
     fancy_c2_amended.2.2 0 c2Frozen 20 "4 s" (c2Frozen, some "4 s")
       (by decide) (by decide) (by decide)⟩⟩

/-- C10: an update whose clamped value equals the task's current progress
reports no change, leaves the dirty flag exactly as it was, and produces no
repaint (the handler never even evaluates the redraw gate). -/
theorem fancy_c10_noop_update (fuel : Nat) (s : LoggerState) (task_id : String)
    (p now : Int) (t : TaskProgress) (hl : odLookup task_id s.tasks = some t)
    (hnc : clampProgress t p = t.progress) :
    (set_progress t p now).2 = false ∧
    update fuel s task_id p now =
      some ({ s with tasks := odSet s.tasks task_id (set_progress t p now).1 }, none) ∧
    ({ s with tasks := odSet s.tasks task_id (set_progress t p now).1 } :
      LoggerState).changes_made = s.changes_made := by
  have h2 : (set_progress t p now).2 = false := by
    rw [set_progress_snd, hnc]
    simp
  refine ⟨h2, ?_, rfl⟩
  simp only [update, hl, h2]
  simp

/-- Witness for the no-op update theorem on a registered task at progress 4
receiving the update 4. -/
theorem fancy_c10_witness :
    odLookup "t" c10State.tasks = some { wTask with progress := 4 } ∧
    clampProgress { wTask with progress := 4 } 4 =
      ({ wTask with progress := 4 } : TaskProgress).progress ∧
    ((set_progress { wTask with progress := 4 } 4 99).2 = false ∧
     update 0 c10State "t" 4 99 =
       some ({ c10State with
         tasks := odSet c10State.tasks "t" (set_progress { wTask with progress := 4 } 4 99).1 },
         none) ∧
     ({ c10State with
        tasks := odSet c10State.tasks "t" (set_progress { wTask with progress := 4 } 4 99).1 } :
        LoggerState).changes_made = c10State.changes_made) :=
  ⟨by decide, by decide,
    fancy_c10_noop_update 0 c10State "t" 4 99 { wTask with progress := 4 }
      (by decide) (by decide)⟩

/-- Folding insertions through the message ring: the buffer is always the
window of its original length at the end of `init ++ xs`. -/
theorem pushMessage_foldl (xs : List String) :
    ∀ (init : List String), init ≠ [] →
      xs.foldl pushMessage init = (init ++ xs).drop xs.length := by
  induction xs with
  | nil => intro init h; simp
  | cons x xs ih =>
    intro init h
    obtain ⟨a, init', rfl⟩ := List.exists_cons_of_ne_nil h
    rw [List.foldl_cons]
    have hp : pushMessage (a :: init') x = init' ++ [x] := by
      simp [pushMessage]
    rw [hp, ih (init' ++ [x]) (by simp)]
    rw [List.append_assoc, List.singleton_append, List.cons_append, List.length_cons,
      List.drop_succ_cons]

/-- Folding insertions through the exception ring: the buffer is always the
window of its original length at the front of `ys.reverse ++ init`. -/
theorem pushException_foldl (ys : List String) :
    ∀ (init : List String), init ≠ [] →
      ys.foldl pushException init = (ys.reverse ++ init).take init.length := by
  induction ys with
  | nil => intro init h; simp
  | cons y ys ih =>
    intro init h
    have hpos : 0 < init.length := List.length_pos.mpr h
    rw [List.foldl_cons]
    have hp : pushException init y = y :: init.dropLast := by
      simp only [pushException]
      rw [if_pos hpos]
    rw [hp, ih (y :: init.dropLast) (by simp)]
    have hlen : (y :: init.dropLast).length = init.length := by
      simp [List.length_dropLast]
      omega
    rw [hlen]
    conv_rhs => rw [← List.dropLast_append_getLast h]
    rw [List.reverse_cons]
    have hA : ys.reverse ++ [y] ++ (init.dropLast ++ [init.getLast h]) =
        (ys.reverse ++ y :: init.dropLast) ++ [init.getLast h] := by
      simp
    rw [hA]
    have hlen2 : (init.dropLast ++ [init.getLast h]).length = init.length := by
      simp [List.length_dropLast]
      omega
    rw [hlen2]
    have hle : init.length ≤ (ys.reverse ++ y :: init.dropLast).length := by
      simp [List.length_dropLast]
      omega
    conv_rhs => rw [List.take_append_of_le_length hle]

/-- C3 counterexample: with configured capacity 0 (the buffers are created as
`0 * ['']`, the empty list), a single insertion makes either ring hold one
entry, exceeding the configured capacity. -/
theorem fancy_c3_counterexample :
    ¬((pushMessage (List.replicate 0 "") "a").length ≤ 0) ∧
    ¬((pushException (List.replicate 0 "") "x").length ≤ 0) := by
  refine ⟨by decide, by decide⟩

/-- C3 amended: for configured capacities of at least 1, the message ring
always holds exactly its capacity of entries, after at least `N` insertions it
holds exactly the last `N` messages in arrival order, and the exception ring
always holds exactly its capacity, after at least `M` insertions holding the
`M` most recent, most-recent-first. -/
theorem fancy_c3_amended (N M k : Nat) (xs ys : List String)
    (hN : 1 ≤ N) (hM : 1 ≤ M) (hx : N ≤ xs.length) (hy : M ≤ ys.length) :
    ((xs.take k).foldl pushMessage (List.replicate N "")).length = N ∧
    xs.foldl pushMessage (List.replicate N "") = xs.drop (xs.length - N) ∧
    ((ys.take k).foldl pushException (List.replicate M "")).length = M ∧
    ys.foldl pushException (List.replicate M "") = ys.reverse.take M := by
  have hneN : (List.replicate N ("" : String)) ≠ [] := by
    simp only [ne_eq, List.replicate_eq_nil_iff]
    omega
  have hneM : (List.replicate M ("" : String)) ≠ [] := by
    simp only [ne_eq, List.replicate_eq_nil_iff]
    omega
  refine ⟨?_, ?_, ?_, ?_⟩
  · rw [pushMessage_foldl _ _ hneN, List.length_drop, List.length_append,
      List.length_replicate]
    omega
  · rw [pushMessage_foldl _ _ hneN]
    have h1 : xs.length = (List.replicate N ("" : String)).length + (xs.length - N) := by
      simp only [List.length_replicate]
      omega
    conv_lhs => rw [h1]
    rw [List.drop_append]
  · rw [pushException_foldl _ _ hneM, List.length_replicate, List.length_take]
    simp only [List.length_append, List.length_reverse, List.length_take,
      List.length_replicate]
    omega
  · rw [pushException_foldl _ _ hneM, List.length_replicate,
      List.take_append_of_le_length (by simp; omega)]

/-- Witness for the amended C3 theorem: capacity 3 with inserts a, b, c, d
yields b, c, d in arrival order; capacity 2 with x, y, z yields z, y
most-recent-first. -/
theorem fancy_c3_witness :
    (1 ≤ 3 ∧ 1 ≤ 2 ∧ 3 ≤ (["a", "b", "c", "d"] : List String).length ∧
      2 ≤ (["x", "y", "z"] : List String).length) ∧
    (((["a", "b", "c", "d"].take 2).foldl pushMessage (List.replicate 3 "")).length = 3 ∧
     ["a", "b", "c", "d"].foldl pushMessage (List.replicate 3 "") =
       ["a", "b", "c", "d"].drop (["a", "b", "c", "d"].length - 3) ∧
     (((["x", "y", "z"] : List String).take 2).foldl pushException
       (List.replicate 2 "")).length = 2 ∧
     (["x", "y", "z"] : List String).foldl pushException (List.replicate 2 "") =
       (["x", "y", "z"] : List String).reverse.take 2) ∧
    ["a", "b", "c", "d"].foldl pushMessage (List.replicate 3 "") = ["b", "c", "d"] ∧
    (["x", "y", "z"] : List String).foldl pushException (List.replicate 2 "") = ["z", "y"] :=
  ⟨⟨by decide, by decide, by decide, by decide⟩,
   fancy_c3_amended 3 2 2 ["a", "b", "c", "d"] ["x", "y", "z"]
     (by decide) (by decide) (by decide) (by decide),
   by decide, by decide⟩

/-- C7 counterexample: growing the message ring from 3 to 5 slots pads with
empty slots at index 0, the eviction end, while the claim says padding happens
at the insertion end (messages are appended at the end of the list). -/
theorem fancy_c7_counterexample :
    (set_configuration c7State c7Grow).messages = ["", "", "a", "b", "c"] ∧
    specGrowMessages c7State.messages 5 = ["a", "b", "c", "", ""] ∧
    (set_configuration c7State c7Grow).messages ≠ specGrowMessages c7State.messages 5 := by
  refine ⟨by decide, by decide, by decide⟩

/-- C7 amended: reconfiguration never resets buffer contents.  Shrinking
evicts from the eviction end, keeping the most recent entries in preserved
order; growing pads with empty slots at the eviction end (the end opposite
insertion: index 0 for messages, the last index for exceptions), never
dropping entries. -/
theorem fancy_c7_amended (s : LoggerState) (c : ConfigCommand)
    (hm : s.messages ≠ []) (he : s.exceptions ≠ []) :
    (set_configuration s c).messages =
      (if c.message_number < s.messages.length then
        s.messages.drop (s.messages.length - c.message_number)
      else List.replicate (c.message_number - s.messages.length) "" ++ s.messages) ∧
    (set_configuration s c).exceptions =
      (if c.exception_number < s.exceptions.length then
        s.exceptions.take c.exception_number
      else s.exceptions ++ List.replicate (c.exception_number - s.exceptions.length) "") := by
  constructor
  · simp only [set_configuration, hm, he]
    split_ifs <;> simp_all
  · simp only [set_configuration, hm, he]
    split_ifs with h1 h2
    · congr 1
      omega
    · rfl
    · have : c.exception_number = s.exceptions.length := by omega
      simp [this]
  
/-- Witness for the amended C7 theorem: shrinking the message ring from 3 held
entries to 2 keeps the two most recent in order, and growing the exception
ring from 1 to 2 pads at its eviction end. -/
theorem fancy_c7_witness :
    c7State.messages ≠ [] ∧ c7State.exceptions ≠ [] ∧
    ((set_configuration c7State c7Shrink).messages =
      (if c7Shrink.message_number < c7State.messages.length then
        c7State.messages.drop (c7State.messages.length - c7Shrink.message_number)
      else List.replicate (c7Shrink.message_number - c7State.messages.length) "" ++
        c7State.messages) ∧
     (set_configuration c7State c7Shrink).exceptions =
      (if c7Shrink.exception_number < c7State.exceptions.length then
        c7State.exceptions.take c7Shrink.exception_number
      else c7State.exceptions ++
        List.replicate (c7Shrink.exception_number - c7State.exceptions.length) "")) ∧
    (set_configuration c7State c7Shrink).messages = ["b", "c"] ∧
    (set_configuration c7State c7Shrink).exceptions = ["x", ""] :=
  ⟨by decide, by decide,
   fancy_c7_amended c7State c7Shrink (by decide) (by decide),
   by decide, by decide⟩

/-- The rendered bar produced by the sweep for a task carries that task's
identifier. -/
theorem sweepTask_tid (fuel : Nat) (rem now : Int) (td : List String) (tid : String)
    (t : TaskProgress) (out : TaskProgress × List String × RenderBar)
    (h : sweepTask fuel rem now td tid t = some out) : out.2.2.tid = tid := by
  simp only [sweepTask] at h
  split at h
  · exact absurd h (by simp)
  · cases h
    rfl

/-- The sweep preserves the registry's keys in order, and draws exactly one
bar per task, in registry order. -/
theorem sweepTasks_ids (fuel : Nat) (rem now : Int) :
    ∀ (tasks : List (String × TaskProgress)) (td : List String)
      (out : List (String × TaskProgress) × List String × List RenderBar),
      sweepTasks fuel rem now td tasks = some out →
      out.1.map Prod.fst = tasks.map Prod.fst ∧
      out.2.2.map RenderBar.tid = tasks.map Prod.fst := by
  intro tasks
  induction tasks with
  | nil =>
    intro td out h
    simp only [sweepTasks] at h
    cases h
    simp
  | cons p rest ih =>
    intro td out h
    obtain ⟨tid, t⟩ := p
    simp only [sweepTasks] at h
    split at h
    · exact absurd h (by simp)
    · rename_i t' td' bar htask
      split at h
      · exact absurd h (by simp)
      · rename_i rest' td'' bars hrest
        cases h
        have h1 := ih _ _ hrest
        have h2 := sweepTask_tid fuel rem now td tid t (t', td', bar) htask
        simp only at h2
        simp [h1.1, h1.2, h2]

/-- When the gate denies the repaint (interval not elapsed, or nothing dirty),
`redraw` leaves the state untouched and paints nothing. -/
theorem redraw_skip (fuel : Nat) (s : LoggerState) (now : Int)
    (h : ¬now - s.refresh_timer > s.redraw_frequency_millis ∨ s.changes_made = false) :
    redraw fuel s now = some (s, none) := by
  simp only [redraw]
  rw [if_pos]
  rcases h with h | h
  · exact Or.inl h
  · exact Or.inr (by simp [h])

/-- When the gate admits the repaint and it terminates, the dirty flag is
cleared, the repaint timer is set to now, the rings and the file sink are
untouched, and the painted frame shows the current message ring, exception
ring, and one bar per registered task (after applying the pending batched
deletions), in order. -/
theorem redraw_fired (fuel : Nat) (s : LoggerState) (now : Int) (s' : LoggerState)
    (r : Option Render) (hcm : s.changes_made = true)
    (hgt : now - s.refresh_timer > s.redraw_frequency_millis)
    (h : redraw fuel s now = some (s', r)) :
    s'.changes_made = false ∧ s'.refresh_timer = now ∧
    s'.messages = s.messages ∧ s'.exceptions = s.exceptions ∧ s'.fileLog = s.fileLog ∧
    ∃ ren, r = some ren ∧ ren.messages = s.messages ∧ ren.exceptions = s.exceptions ∧
      ren.bars.map RenderBar.tid =
        (s.to_delete.foldl (fun ts tid => odErase ts tid) s.tasks).map Prod.fst := by
  simp only [redraw] at h
  rw [if_neg (by push_neg; exact ⟨hgt, hcm⟩)] at h
  by_cases hdel : 0 < s.to_delete.length
  · simp only [if_pos hdel] at h
    split at h
    · exact absurd h (by simp)
    · rename_i tasks' td' bars hsweep
      cases h
      have hids := sweepTasks_ids fuel s.task_millis_to_removal now _ _ _ hsweep
      exact ⟨rfl, rfl, rfl, rfl, rfl, _, rfl, rfl, rfl, hids.2⟩
  · simp only [if_neg hdel] at h
    have hnil : s.to_delete = [] := by
      cases hd : s.to_delete with
      | nil => rfl
      | cons a l => rw [hd] at hdel; simp at hdel
    split at h
    · exact absurd h (by simp)
    · rename_i tasks' td' bars hsweep
      cases h
      have hids := sweepTasks_ids fuel s.task_millis_to_removal now _ _ _ hsweep
      rw [hnil]
      exact ⟨rfl, rfl, rfl, rfl, rfl, _, rfl, rfl, rfl, hids.2⟩

/-- A terminating `redraw` never changes the message ring, the exception ring
or the file sink, whether or not it repaints. -/
theorem redraw_preserves (fuel : Nat) (s : LoggerState) (now : Int)
    (out : LoggerState × Option Render) (h : redraw fuel s now = some out) :
    out.1.messages = s.messages ∧ out.1.exceptions = s.exceptions ∧
    out.1.fileLog = s.fileLog := by
  by_cases hc : s.changes_made = true ∧ now - s.refresh_timer > s.redraw_frequency_millis
  · obtain ⟨s', r⟩ := out
    have hf := redraw_fired fuel s now s' r hc.1 hc.2 h
    exact ⟨hf.2.2.1, hf.2.2.2.1, hf.2.2.2.2.1⟩
  · have hskip : redraw fuel s now = some (s, none) := by
      apply redraw_skip
      rcases not_and_or.mp hc with h1 | h1
      · exact Or.inr (by simpa using h1)
      · exact Or.inl h1
    rw [hskip] at h
    cases h
    exact ⟨rfl, rfl, rfl⟩

/-- C4: a repaint happens exactly when the dirty flag is set and the time
since the last repaint exceeds the configured interval; a positive decision
clears the flag and moves the timer to now; and a `flush` zeroes the timer and
forces the flag, so that (for any interval smaller than the epoch clock value,
however much larger than the time since the last repaint) the repaint always
fires and paints the current state: the rings and one bar per registered task
as accumulated from every command handled before the flush. -/
theorem fancy_c4_redraw_gate :
    (∀ (fuel : Nat) (s : LoggerState) (now : Int),
      ¬now - s.refresh_timer > s.redraw_frequency_millis ∨ s.changes_made = false →
      redraw fuel s now = some (s, none)) ∧
    (∀ (fuel : Nat) (s : LoggerState) (now : Int) (s' : LoggerState) (r : Option Render),
      s.changes_made = true → now - s.refresh_timer > s.redraw_frequency_millis →
      redraw fuel s now = some (s', r) →
      r ≠ none ∧ s'.changes_made = false ∧ s'.refresh_timer = now) ∧
    (∀ (fuel : Nat) (s : LoggerState) (now : Int) (s' : LoggerState) (r : Option Render),
      s.redraw_frequency_millis < now →
      flush fuel s now = some (s', r) →
      r ≠ none ∧ s'.changes_made = false ∧ s'.refresh_timer = now ∧
      ∃ ren, r = some ren ∧ ren.messages = s.messages ∧ ren.exceptions = s.exceptions ∧
        ren.bars.map RenderBar.tid =
          (s.to_delete.foldl (fun ts tid => odErase ts tid) s.tasks).map Prod.fst) := by
  refine ⟨redraw_skip, ?_, ?_⟩
  · intro fuel s now s' r hcm hgt h
    have hf := redraw_fired fuel s now s' r hcm hgt h
    obtain ⟨ren, hren, -⟩ := hf.2.2.2.2.2
    exact ⟨by simp [hren], hf.1, hf.2.1⟩
  · intro fuel s now s' r hfreq h
    simp only [flush] at h
    have hf := redraw_fired fuel _ now s' r rfl (by simpa using hfreq) h
    obtain ⟨ren, hren, hmsg, hexc, hbars⟩ := hf.2.2.2.2.2
    exact ⟨by simp [hren], hf.1, hf.2.1, ren, hren, hmsg, hexc, hbars⟩

/-- Witness for the C4 gate theorem: a clean state defers, a dirty state past
the interval repaints clearing the flag and resetting the timer, and a flush
repaints even from a clean state whose last repaint was 1 ms ago under a 5 ms
interval. -/
theorem fancy_c4_witness :
    redraw 0 { wState with changes_made := false } 16 =
      some ({ wState with changes_made := false }, none) ∧
    (redraw 0 wState 16 = some (c4After, some c4Ren) ∧
      (some c4Ren ≠ (none : Option Render)) ∧
      c4After.changes_made = false ∧ c4After.refresh_timer = 16) ∧
    (flush 0 { wState with changes_made := false, refresh_timer := 15 } 16 =
        some (c4After, some c4Ren) ∧
      some c4Ren ≠ (none : Option Render) ∧ c4After.refresh_timer = 16) := by
  constructor
  · exact fancy_c4_redraw_gate.1 0 { wState with changes_made := false } 16 (Or.inr rfl)
  constructor
  · have h2 := fancy_c4_redraw_gate.2.1 0 wState 16 c4After (some c4Ren) rfl
      (by decide) (by decide)
    exact ⟨by decide, h2.1, h2.2.1, h2.2.2⟩
  · have h3 := fancy_c4_redraw_gate.2.2 0
      { wState with changes_made := false, refresh_timer := 15 } 16 c4After (some c4Ren)
      (by decide) (by decide)
    exact ⟨by decide, h3.1, h3.2.2.1⟩

/-- The equality chains of the five console handlers implement exactly the
minimum-level comparison on the standard levels. -/
theorem consolePass_levelValue (minLevel msgLevel : PyLevel) :
    consolePass minLevel msgLevel = true ↔ levelValue minLevel ≤ levelValue msgLevel := by
  cases minLevel <;> cases msgLevel <;> decide

/-- C8: a `LogMessage` command is filtered for console display by the current
minimum level; exactly when it passes, the formatted line (timestamp, level
name, text) is pushed onto the message ring and a redraw is attempted with the
dirty flag set; and whether or not it passes, the text is forwarded to the
durable file sink. -/
theorem fancy_c8_log_message (fuel : Nat) (s : LoggerState) (lvl : PyLevel)
    (text ts : String) (now : Int) (s' : LoggerState) (pass att : Bool)
    (h : log_message fuel s lvl text ts now = some (s', pass, att)) :
    (pass = true ↔ levelValue s.level ≤ levelValue lvl) ∧
    att = pass ∧
    (pass = true → s'.messages = pushMessage s.messages (consoleFormat ts lvl text)) ∧
    s'.fileLog = s.fileLog ++ [(lvl, fileIndent lvl ++ text)] := by
  cases hp : consolePass s.level lvl
  · simp only [log_message, hp, Bool.false_eq_true, if_false] at h
    cases h
    refine ⟨?_, rfl, by simp, rfl⟩
    rw [← consolePass_levelValue, hp]
  · simp only [log_message, hp, if_true] at h
    split at h
    · exact absurd h (by simp)
    · rename_i s1 r1 happ
      split at h
      · exact absurd h (by simp)
      · rename_i s3 r2 hred
        cases h
        have hp1 : s1.messages = pushMessage s.messages (consoleFormat ts lvl text) ∧
            s1.fileLog = s.fileLog := by
          have := redraw_preserves fuel _ now (s1, r1) happ
          exact ⟨this.1, this.2.2⟩
        have hp2 : s3.messages = s1.messages ∧ s3.fileLog = s1.fileLog := by
          have := redraw_preserves fuel _ now (s3, r2) hred
          exact ⟨this.1, this.2.2⟩
        refine ⟨?_, rfl, fun _ => ?_, ?_⟩
        · rw [← consolePass_levelValue, hp]
        · exact hp2.1.trans hp1.1
        · simp only [hp2.2, hp1.2]

/-- Witness for the C8 theorem: an info-level logger handling a warning
message at time 16. -/
theorem fancy_c8_witness :
    log_message 0 wState .warning "boom" "T" 16 = some (c8After, true, true) ∧
    ((true = true) ↔ levelValue wState.level ≤ levelValue PyLevel.warning) ∧
    c8After.messages = pushMessage wState.messages (consoleFormat "T" PyLevel.warning "boom") ∧
    c8After.fileLog = wState.fileLog ++ [(PyLevel.warning, fileIndent PyLevel.warning ++ "boom")] := by
  have h := fancy_c8_log_message 0 wState .warning "boom" "T" 16 c8After true true (by decide)
  exact ⟨by decide, h.1, h.2.2.1 rfl, h.2.2.2⟩

/-- C6 counterexample: in the prescribed scenario (total 10, ten updates,
`keep_alive` false, zero removal delay), after the first redraw tick past the
removal threshold (the flush at time 12) the task is only marked for deletion
and is still present in the registry, contrary to the claim. -/
theorem fancy_c6_counterexample :
    (runCommands 0 c6Start c6Commands).map
      (fun s => ((odLookup "t" s.tasks).isSome, s.to_delete)) = some (true, ["t"]) := by
  decide

/-- C6 amended: the sweep starts the removal timer at the first redraw
observing completion (time 11), the first redraw tick past the threshold
(time 12) marks the task for deletion, and the batched deletion applied at the
start of the following redraw tick (time 13) removes it from the registry. -/
theorem fancy_c6_removal :
    (runCommands 0 c6Start c6Commands).map (fun s => s.to_delete) = some ["t"] ∧
    (runCommands 0 c6Start c6CommandsMore).map (fun s => odLookup "t" s.tasks) =
      some none := by
  exact ⟨by decide, by decide⟩
